import Mathlib

/-!
Verification of the autodiscover cache of `exchangelib`
(`src/exchangelib/autodiscover/cache.py`).

The cache is a two-tier store:
* a per-process dictionary `_protocols` mapping `(domain, credentials)` keys to
  `AutodiscoverProtocol` connection objects (the in-memory index), and
* a `shelve` file mapping `str(domain)` to the 3-tuple
  `(service_endpoint, auth_type, retry_policy)` (the persistent store).

Python dictionaries and the shelve database are modelled as association lists
with insertion-order-preserving overwrite (`ainsert`), first-match lookup
(`alookup`) and key-filtering erase (`aerase`); these have exactly the
observable `get`/`set`/`del` semantics of a `dict`.  Machinery that is pure
bookkeeping in the source (logging, the re-entrant lock, `__str__`) is not
modelled; every state-changing line of `AutodiscoverCache` is.
-/

namespace Exchangelib

/-- Email domain string; the persistence key (`key[0]` in the source). -/
abbrev Domain := String

/-- Opaque comparable credential identity; only part of the in-memory key. -/
abbrev Cred := String

/-- The exact payload persisted by `AutodiscoverCache.__setitem__`:
`(protocol.service_endpoint, protocol.auth_type, protocol.retry_policy)`. -/
abbrev DiscoveryRecord := String × String × String

section AssocList

variable {α : Type} {β : Type} [DecidableEq α]

/-- First-match lookup in an association list; `dict.get` semantics. -/
def alookup : List (α × β) → α → Option β
  | [], _ => none
  | (a, b) :: t, k => if a = k then some b else alookup t k

/-- Overwrite-or-append insertion, preserving insertion order like a Python
`dict` assignment `d[k] = v`. -/
def ainsert : List (α × β) → α → β → List (α × β)
  | [], k, v => [(k, v)]
  | (a, b) :: t, k, v => if a = k then (k, v) :: t else (a, b) :: ainsert t k v

/-- Deletion of a key; `del d[k]` with the `KeyError` swallowed (the source
always wraps the delete in `try ... except KeyError: pass`). -/
def aerase (l : List (α × β)) (k : α) : List (α × β) :=
  l.filter fun p => decide (p.1 ≠ k)

end AssocList

/-- Modelled from the spec: the connection-object factory collaborator
(`Configuration` from `..configuration`, not under `src/`).  Per the spec it
carries `{serviceEndpoint, credentials, authType, retryPolicy}` and the
resulting connection handle exposes readable
`serviceEndpoint`/`authType`/`retryPolicy` equal to what it was given. -/
structure Configuration where
  service_endpoint : String
  credentials : Cred
  auth_type : String
  retry_policy : String
  deriving DecidableEq, Repr

/-- Modelled from the spec: the externally-constructed connection handle
(`AutodiscoverProtocol` from `.protocol`, not under `src/`), wrapping a
discovery record plus credentials. -/
structure AutodiscoverProtocol where
  config : Configuration
  deriving DecidableEq, Repr

/-- Readable service endpoint of a connection handle (spec: the factory
"returns a ConnectionHandle exposing readable serviceEndpoint"). -/
def AutodiscoverProtocol.service_endpoint (p : AutodiscoverProtocol) : String :=
  p.config.service_endpoint

/-- Readable auth type of a connection handle. -/
def AutodiscoverProtocol.auth_type (p : AutodiscoverProtocol) : String :=
  p.config.auth_type

/-- Readable retry policy of a connection handle. -/
def AutodiscoverProtocol.retry_policy (p : AutodiscoverProtocol) : String :=
  p.config.retry_policy

/-- State of an `AutodiscoverCache` object: `protocols` is the in-memory
`self._protocols` dict, `db` is the contents of the shelve file at
`self._storage_file`. -/
structure CacheState where
  protocols : List ((Domain × Cred) × AutodiscoverProtocol)
  db : List (Domain × DiscoveryRecord)
  deriving DecidableEq, Repr

namespace AutodiscoverCache

/-- `AutodiscoverCache.__contains__`: opens the shelve and checks
`str(domain) in db` where `domain = key[0]`.  The in-memory index is not
consulted. -/
def __contains__ (s : CacheState) (key : Domain × Cred) : Bool :=
  (alookup s.db key.1).isSome

/-- `AutodiscoverCache.__getitem__`: return the cached protocol for `key` if
`self._protocols` has one; otherwise read the 3-tuple for `str(domain)` from
the shelve (`none` models the `KeyError` that the source lets propagate),
build a new `AutodiscoverProtocol` from it plus the supplied credentials, and
memoize it under `key`. -/
def __getitem__ (s : CacheState) (key : Domain × Cred) :
    Option (AutodiscoverProtocol × CacheState) :=
  match alookup s.protocols key with
  | some protocol => some (protocol, s)
  | none =>
    match alookup s.db key.1 with
    | none => none
    | some (endpoint, auth_type, retry_policy) =>
      let protocol : AutodiscoverProtocol :=
        { config := { service_endpoint := endpoint, credentials := key.2,
                      auth_type := auth_type, retry_policy := retry_policy } }
      some (protocol, { s with protocols := ainsert s.protocols key protocol })

/-- Number of shelve opens performed by `AutodiscoverCache.__getitem__`: the
`with shelve_open_with_failover(...)` block runs only when the in-memory
index misses. -/
def getitem_shelve_opens (s : CacheState) (key : Domain × Cred) : Nat :=
  match alookup s.protocols key with
  | some _ => 0
  | none => 1

/-- `AutodiscoverCache.__setitem__`: write
`(protocol.service_endpoint, protocol.auth_type, protocol.retry_policy)`
under `str(domain)` in the shelve, then store `protocol` under `key` in
`self._protocols`. -/
def __setitem__ (s : CacheState) (key : Domain × Cred)
    (protocol : AutodiscoverProtocol) : CacheState :=
  { db := ainsert s.db key.1
      (protocol.service_endpoint, protocol.auth_type, protocol.retry_policy),
    protocols := ainsert s.protocols key protocol }

/-- `AutodiscoverCache.__delitem__`: delete `str(domain)` from the shelve and
`key` from `self._protocols`, swallowing `KeyError` in both tiers. -/
def __delitem__ (s : CacheState) (key : Domain × Cred) : CacheState :=
  { db := aerase s.db key.1,
    protocols := aerase s.protocols key }

/-- `AutodiscoverCache.clear`: `db.clear()` then `self._protocols.clear()`. -/
def clear (_s : CacheState) : CacheState :=
  { db := [], protocols := [] }

/-- `AutodiscoverCache.close`: call `protocol.close()` on every entry of
`self._protocols` (returned here as the list of handles closed, in iteration
order), then clear the index.  The shelve is not touched. -/
def close (s : CacheState) : List AutodiscoverProtocol × CacheState :=
  (s.protocols.map Prod.snd, { s with protocols := [] })

end AutodiscoverCache

/-- `shelve_filename`: builds
`'exchangelib.{version}.cache.{user}.py{major}{minor}'` with `version = 2`,
where `user` is `getpass.getuser()` or the fixed fallback `'exchangelib'`
when `getuser` raises `KeyError`.  The `getuser` call is modelled as an
`Option String` argument (`none` = `KeyError`). -/
def shelve_filename (getuser : Option String) (major minor : Nat) : String :=
  let version : Nat := 2
  let user :=
    match getuser with
    | some u => u
    | none => "exchangelib"
  "exchangelib." ++ toString version ++ ".cache." ++ user ++ ".py"
    ++ toString major ++ toString minor

/-- Character-list prefix test, structural so that the kernel can evaluate
it on concrete strings. -/
def list_starts_with : List Char → List Char → Bool
  | _, [] => true
  | [], _ :: _ => false
  | c :: cs, p :: ps => decide (c = p) && list_starts_with cs ps

/-- String prefix test: `str_starts_with f base` holds exactly when the glob
pattern `base + '*'` (as used by `glob.glob(filename + '*')` in the source,
where the cache filename contains no glob metacharacters) matches `f`. -/
def str_starts_with (f base : String) : Bool :=
  list_starts_with f.data base.data

/-- Outcome of one call to `shelve_open_with_failover`: the shelve contents
handed to the body (`none` = the open raised and the exception propagated),
the cache files remaining on disk, and how many times `shelve.open` ran. -/
structure FailoverResult where
  db? : Option (List (Domain × DiscoveryRecord))
  files : List String
  open_attempts : Nat
  deriving DecidableEq, Repr

/-- `shelve_open_with_failover`: try `shelve.open(filename)`; on any
exception delete every file matching the glob `filename + '*'` (every file
whose name starts with `filename`) and call `shelve.open(filename)` once
more, letting a second failure propagate.  `openF` models `shelve.open` as a
function of the set of files on disk, with `none` meaning the open raises. -/
def shelve_open_with_failover (files : List String) (filename : String)
    (openF : List String → Option (List (Domain × DiscoveryRecord))) :
    FailoverResult :=
  match openF files with
  | some db => { db? := some db, files := files, open_attempts := 1 }
  | none =>
    let files2 := files.filter fun f => !(str_starts_with f filename)
    { db? := openF files2, files := files2, open_attempts := 2 }

/-- Explicit shelve-handle accounting for one
`with shelve_open_with_failover(...)` block: the context manager opens one
handle before the body runs and, after the body, executes
`shelve_handle.close()` only under `if PY2:`.  Given the number of
explicitly open handles before the block, returns the number still
explicitly open when the enclosing cache operation returns. -/
def shelve_open_with_failover_handles (py2 : Bool) (open_before : Nat) : Nat :=
  let after_open := open_before + 1
  if py2 then after_open - 1 else after_open

/-- Two-tier invariant of the spec: every entry of the in-memory index is
for a domain that the persistent store also has. -/
def IndexStoreInv (s : CacheState) : Prop :=
  ∀ e ∈ s.protocols, (alookup s.db e.1.1).isSome = true

instance decIndexStoreInv (s : CacheState) : Decidable (IndexStoreInv s) :=
  List.decidableBAll _ s.protocols

/-- Concrete connection handle used to instantiate verified statements. -/
def pHandle1 : AutodiscoverProtocol := ⟨⟨"e", "c1", "a", "r"⟩⟩

/-- Concrete connection handle with a different credential identity. -/
def pHandle2 : AutodiscoverProtocol := ⟨⟨"e", "c2", "a", "r"⟩⟩

/-- Concrete cache state: one index entry, its domain persisted. -/
def sState : CacheState :=
  { protocols := [(("d", "c1"), pHandle1)], db := [("d", ("e", "a", "r"))] }

/-- Concrete cache state: the same domain indexed under two credentials. -/
def sState2 : CacheState :=
  { protocols := [(("d", "c1"), pHandle1), (("d", "c2"), pHandle2)],
    db := [("d", ("e", "a", "r"))] }

/-- Concrete file set for the corruption-recovery statements. -/
def sFiles : List String := ["ab", "ab.db", "zz"]

/-- Concrete model of `shelve.open` for the corruption-recovery statements:
raises as long as the stale file `ab.db` is on disk, succeeds with an empty
shelve once it is gone. -/
def sOpenF : List String → Option (List (Domain × DiscoveryRecord)) :=
  fun fs => if fs.contains "ab.db" then none else some []

open AutodiscoverCache

theorem alookup_ainsert_self {α β : Type} [DecidableEq α] (l : List (α × β))
    (k : α) (v : β) : alookup (ainsert l k v) k = some v := by
  induction l with
  | nil => simp [ainsert, alookup]
  | cons p t ih =>
    obtain ⟨a, b⟩ := p
    by_cases h : a = k
    · simp [ainsert, alookup, h]
    · simp [ainsert, alookup, h, ih]

theorem alookup_ainsert_ne {α β : Type} [DecidableEq α] (l : List (α × β))
    (k k' : α) (v : β) (h : k' ≠ k) :
    alookup (ainsert l k v) k' = alookup l k' := by
  have hkk' : ¬ k = k' := fun hh => h hh.symm
  induction l with
  | nil => simp [ainsert, alookup, hkk']
  | cons p t ih =>
    obtain ⟨a, b⟩ := p
    by_cases ha : a = k
    · subst ha
      simp [ainsert, alookup, hkk']
    · by_cases ha' : a = k'
      · simp [ainsert, alookup, ha, ha', h]
      · simp [ainsert, alookup, ha, ha', ih]

theorem alookup_aerase_self {α β : Type} [DecidableEq α] (l : List (α × β))
    (k : α) : alookup (aerase l k) k = none := by
  induction l with
  | nil => rfl
  | cons p t ih =>
    obtain ⟨a, b⟩ := p
    by_cases h : a = k
    · simpa [aerase, List.filter_cons, h] using ih
    · simpa [aerase, List.filter_cons, alookup, h] using ih

theorem alookup_aerase_ne {α β : Type} [DecidableEq α] (l : List (α × β))
    (k k' : α) (h : k' ≠ k) :
    alookup (aerase l k) k' = alookup l k' := by
  induction l with
  | nil => rfl
  | cons p t ih =>
    obtain ⟨a, b⟩ := p
    by_cases hk : a = k
    · subst hk
      have hak' : ¬ a = k' := fun hh => h hh.symm
      simpa [aerase, List.filter_cons, alookup, hak'] using ih
    · by_cases hk' : a = k'
      · simp [aerase, List.filter_cons, alookup, hk, hk', h]
      · simpa [aerase, List.filter_cons, alookup, hk, hk'] using ih

theorem aerase_aerase {α β : Type} [DecidableEq α] (l : List (α × β))
    (k : α) : aerase (aerase l k) k = aerase l k := by
  simp [aerase, List.filter_filter]

theorem mem_ainsert {α β : Type} [DecidableEq α] (l : List (α × β)) (k : α)
    (v : β) (e : α × β) (h : e ∈ ainsert l k v) : e = (k, v) ∨ e ∈ l := by
  induction l with
  | nil => simpa [ainsert] using h
  | cons p t ih =>
    obtain ⟨a, b⟩ := p
    by_cases ha : a = k
    · subst ha
      rcases (by simpa [ainsert] using h : e = (a, v) ∨ e ∈ t) with h1 | h1
      · exact Or.inl h1
      · exact Or.inr (List.mem_cons_of_mem _ h1)
    · rcases (by simpa [ainsert, ha] using h : e = (a, b) ∨ e ∈ ainsert t k v)
        with h1 | h1
      · exact Or.inr (by simp [h1])
      · rcases ih h1 with h2 | h2
        · exact Or.inl h2
        · exact Or.inr (List.mem_cons_of_mem _ h2)

theorem mem_aerase {α β : Type} [DecidableEq α] (l : List (α × β)) (k : α)
    (e : α × β) (h : e ∈ aerase l k) : e ∈ l ∧ e.1 ≠ k := by
  have := List.mem_filter.mp h
  exact ⟨this.1, by simpa using this.2⟩

theorem alookup_isSome_ainsert {α β : Type} [DecidableEq α]
    (l : List (α × β)) (k k' : α) (v : β)
    (h : (alookup l k').isSome = true ∨ k' = k) :
    (alookup (ainsert l k v) k').isSome = true := by
  by_cases hk : k' = k
  · subst hk
    simp [alookup_ainsert_self]
  · rcases h with h | h
    · rw [alookup_ainsert_ne _ _ _ _ hk]
      exact h
    · exact absurd h hk

/-- C1: inserting a handle whose service endpoint, auth type and retry
policy are R's fields under key (D, C) and then looking up (D, C) returns a
handle whose service endpoint, auth type and retry policy equal R's
fields. -/
theorem insert_then_lookup_returns_record (s : CacheState) (D : Domain)
    (C : Cred) (p : AutodiscoverProtocol) :
    ∃ q s',
      __getitem__ (__setitem__ s (D, C) p) (D, C) = some (q, s')
      ∧ q.service_endpoint = p.service_endpoint
      ∧ q.auth_type = p.auth_type
      ∧ q.retry_policy = p.retry_policy := by
  refine ⟨p, __setitem__ s (D, C) p, ?_, rfl, rfl, rfl⟩
  simp [__getitem__, __setitem__, alookup_ainsert_self]

/-- C2: the value persisted for domain D by an insert is exactly the
3-tuple of the handle's readable fields; it is the same whatever the
credential component of the key is, and for a handle built from any
credential value the persisted payload mentions only the endpoint, auth
type and retry policy. -/
theorem persisted_value_credential_independent (s : CacheState) (D : Domain)
    (c1 c2 : Cred) (p : AutodiscoverProtocol) :
    (__setitem__ s (D, c1) p).db = (__setitem__ s (D, c2) p).db
    ∧ alookup (__setitem__ s (D, c1) p).db D
        = some (p.service_endpoint, p.auth_type, p.retry_policy)
    ∧ ∀ e c a r, (__setitem__ s (D, c1) ⟨⟨e, c, a, r⟩⟩).db
        = ainsert s.db D (e, a, r) :=
  ⟨rfl, alookup_ainsert_self _ _ _, fun _ _ _ _ => rfl⟩

/-- C3 counterexample: from a state satisfying the two-tier invariant in
which the index holds domain `"d"` under two different credentials, `remove`
of one key deletes the domain from the persistent store but leaves the other
index entry, breaking the invariant. -/
theorem remove_breaks_index_store_invariant :
    IndexStoreInv sState2
    ∧ ¬ IndexStoreInv (__delitem__ sState2 ("d", "c1")) := by
  decide

/-- C3 (amended): lookup, insert, clear and close preserve the invariant
that every in-memory index entry is for a domain present in the persistent
store; remove preserves it provided the index holds no entry for the removed
domain under a different credential. -/
theorem facade_ops_preserve_index_store_invariant (s : CacheState)
    (key : Domain × Cred) (p : AutodiscoverProtocol) (h : IndexStoreInv s) :
    IndexStoreInv (__setitem__ s key p)
    ∧ (∀ q s', __getitem__ s key = some (q, s') → IndexStoreInv s')
    ∧ IndexStoreInv (clear s)
    ∧ IndexStoreInv (close s).2
    ∧ ((∀ e ∈ s.protocols, e.1.1 = key.1 → e.1 = key) →
        IndexStoreInv (__delitem__ s key)) := by
  refine ⟨?_, ?_, ?_, ?_, ?_⟩
  · intro e he
    rcases mem_ainsert _ _ _ _ he with rfl | hmem
    · exact alookup_isSome_ainsert _ _ _ _ (Or.inr rfl)
    · by_cases hd : e.1.1 = key.1
      · exact alookup_isSome_ainsert _ _ _ _ (Or.inr hd)
      · exact alookup_isSome_ainsert _ _ _ _ (Or.inl (h e hmem))
  · intro q s' hq
    rcases hpk : alookup s.protocols key with _ | p0
    · rcases hdb : alookup s.db key.1 with _ | ⟨e0, a0, r0⟩
      · simp [__getitem__, hpk, hdb] at hq
      · simp only [__getitem__, hpk, hdb] at hq
        obtain ⟨rfl, rfl⟩ := Prod.mk.injEq .. ▸ (Option.some.injEq .. ▸ hq)
        intro e he
        rcases mem_ainsert _ _ _ _ he with rfl | hmem
        · simpa using congrArg Option.isSome hdb
        · exact h e hmem
    · simp only [__getitem__, hpk] at hq
      obtain ⟨rfl, rfl⟩ := Prod.mk.injEq .. ▸ (Option.some.injEq .. ▸ hq)
      exact h
  · intro e he
    simp [clear] at he
  · intro e he
    simp [close] at he
  · intro honly e he
    obtain ⟨hmem, hne⟩ := mem_aerase _ _ _ he
    have hdom : e.1.1 ≠ key.1 := fun hd => hne (honly e hmem hd)
    have := alookup_aerase_ne s.db key.1 e.1.1 hdom
    simp only [__delitem__] at this ⊢
    rw [this]
    exact h e hmem

/-- C3 witness: the amended preservation statement instantiated at a
concrete invariant-satisfying state. -/
theorem facade_ops_preserve_index_store_invariant_witness :
    IndexStoreInv sState
    ∧ (IndexStoreInv (__setitem__ sState ("d", "c1") pHandle1)
      ∧ (∀ q s', __getitem__ sState ("d", "c1") = some (q, s') →
          IndexStoreInv s')
      ∧ IndexStoreInv (clear sState)
      ∧ IndexStoreInv (close sState).2
      ∧ ((∀ e ∈ sState.protocols, e.1.1 = "d" → e.1 = ("d", "c1")) →
          IndexStoreInv (__delitem__ sState ("d", "c1")))) :=
  ⟨by decide,
   facade_ops_preserve_index_store_invariant sState ("d", "c1") pHandle1
     (by decide)⟩

/-- C4: removing a key makes `contains` false for it, and removing the same
key twice in a row is harmless: the second remove finds nothing to delete in
either tier (both `KeyError`s are swallowed) and leaves the state exactly as
the first remove left it. -/
theorem remove_then_contains_false_and_remove_idempotent (s : CacheState)
    (key : Domain × Cred) :
    __contains__ (__delitem__ s key) key = false
    ∧ __delitem__ (__delitem__ s key) key = __delitem__ s key := by
  constructor
  · simp [__contains__, __delitem__, alookup_aerase_self]
  · simp [__delitem__, aerase_aerase]

/-- C5: when the first `shelve.open` raises, the failover deletes exactly
the files whose names start with the cache filename, retries the open
exactly once (two attempts in total), and hands the caller whatever that
single retry produced: its shelve on success, its exception on failure. -/
theorem failover_deletes_and_retries_once (files : List String)
    (filename : String)
    (openF : List String → Option (List (Domain × DiscoveryRecord)))
    (h : openF files = none) :
    (shelve_open_with_failover files filename openF).open_attempts = 2
    ∧ (∀ f ∈ (shelve_open_with_failover files filename openF).files,
        str_starts_with f filename = false)
    ∧ (∀ f ∈ files, str_starts_with f filename = false →
        f ∈ (shelve_open_with_failover files filename openF).files)
    ∧ (shelve_open_with_failover files filename openF).db?
        = openF (files.filter fun f => !(str_starts_with f filename)) := by
  unfold shelve_open_with_failover
  rw [h]
  refine ⟨rfl, ?_, ?_, rfl⟩
  · intro f hf
    have := List.mem_filter.mp hf
    simpa using this.2
  · intro f hf hsw
    exact List.mem_filter.mpr ⟨hf, by simp [hsw]⟩

/-- C5 witness: recovery at a concrete corrupted file set, where the retry
succeeds after the matching files are deleted. -/
theorem failover_deletes_and_retries_once_witness :
    sOpenF sFiles = none
    ∧ ((shelve_open_with_failover sFiles "ab" sOpenF).open_attempts = 2
      ∧ (∀ f ∈ (shelve_open_with_failover sFiles "ab" sOpenF).files,
          str_starts_with f "ab" = false)
      ∧ (∀ f ∈ sFiles, str_starts_with f "ab" = false →
          f ∈ (shelve_open_with_failover sFiles "ab" sOpenF).files)
      ∧ (shelve_open_with_failover sFiles "ab" sOpenF).db?
          = sOpenF (sFiles.filter fun f => !(str_starts_with f "ab"))) :=
  ⟨by decide, failover_deletes_and_retries_once sFiles "ab" sOpenF (by decide)⟩

/-- C6 counterexample: under Python 3 (`PY2 = false`) the context manager's
`if PY2: shelve_handle.close()` is skipped, so an operation that starts with
zero explicitly open shelve handles returns with one still open. -/
theorem shelve_handle_left_open_on_py3 :
    shelve_open_with_failover_handles false 0 ≠ 0 := by
  decide

/-- C6 (amended): the shelve handle opened by a public cache operation is
explicitly closed before the operation returns exactly when running under
Python 2; under Python 3 the `if PY2:` guard skips the close and the handle
is still explicitly open when the operation returns, its release being left
to the runtime (no reference to it is retained across calls). -/
theorem shelve_handle_scoped_close (n : Nat) :
    shelve_open_with_failover_handles true n = n
    ∧ shelve_open_with_failover_handles false n = n + 1 := by
  constructor <;> simp [shelve_open_with_failover_handles]

/-- C7: `close` calls `protocol.close()` exactly once per index entry (the
closed handles are exactly the index's values, in iteration order), empties
the index and leaves the persistent store untouched, so membership is
unchanged; afterwards a lookup for a persisted domain rebuilds a fresh
handle through the factory. -/
theorem close_closes_each_handle_once_and_empties_index (s : CacheState)
    (key : Domain × Cred) (e a r : String)
    (h : alookup s.db key.1 = some (e, a, r)) :
    (close s).1 = s.protocols.map Prod.snd
    ∧ (close s).2.protocols = []
    ∧ (close s).2.db = s.db
    ∧ (∀ k : Domain × Cred, __contains__ (close s).2 k = __contains__ s k)
    ∧ __getitem__ (close s).2 key
        = some (⟨⟨e, key.2, a, r⟩⟩,
            { protocols := ainsert [] key ⟨⟨e, key.2, a, r⟩⟩, db := s.db }) := by
  refine ⟨rfl, rfl, rfl, fun k => rfl, ?_⟩
  simp [close, __getitem__, alookup, h]

/-- C7 witness: the `close` postconditions instantiated at a concrete state
with a persisted domain. -/
theorem close_closes_each_handle_once_and_empties_index_witness :
    alookup sState.db "d" = some ("e", "a", "r")
    ∧ ((close sState).1 = sState.protocols.map Prod.snd
      ∧ (close sState).2.protocols = []
      ∧ (close sState).2.db = sState.db
      ∧ (∀ k : Domain × Cred,
          __contains__ (close sState).2 k = __contains__ sState k)
      ∧ __getitem__ (close sState).2 ("d", "c1")
          = some (⟨⟨"e", "c1", "a", "r"⟩⟩,
              { protocols := ainsert [] ("d", "c1") ⟨⟨"e", "c1", "a", "r"⟩⟩,
                db := sState.db })) :=
  ⟨by decide,
   close_closes_each_handle_once_and_empties_index sState ("d", "c1")
     "e" "a" "r" (by decide)⟩

/-- C8: when the in-memory index holds `key`, `__getitem__` returns exactly
the indexed handle, leaves the state unchanged, and opens the shelve zero
times. -/
theorem memory_hit_returns_cached_handle_no_store_read (s : CacheState)
    (key : Domain × Cred) (p : AutodiscoverProtocol)
    (h : alookup s.protocols key = some p) :
    __getitem__ s key = some (p, s) ∧ getitem_shelve_opens s key = 0 := by
  constructor
  · simp [__getitem__, h]
  · simp [getitem_shelve_opens, h]

/-- C8 witness: the in-memory fast path at a concrete state. -/
theorem memory_hit_returns_cached_handle_no_store_read_witness :
    alookup sState.protocols ("d", "c1") = some pHandle1
    ∧ (__getitem__ sState ("d", "c1") = some (pHandle1, sState)
      ∧ getitem_shelve_opens sState ("d", "c1") = 0) :=
  ⟨by decide,
   memory_hit_returns_cached_handle_no_store_read sState ("d", "c1") pHandle1
     (by decide)⟩

/-- C9: the cache filename is the fixed format-version-2 pattern applied to
the runtime major/minor versions and the invoking user, with the sentinel
user `exchangelib` substituted when `getpass.getuser()` raises `KeyError`,
and the computation is total (no error escapes it). -/
theorem shelve_filename_deterministic_with_sentinel (getuser : Option String)
    (major minor : Nat) :
    shelve_filename getuser major minor
      = "exchangelib." ++ toString (2 : Nat) ++ ".cache."
        ++ getuser.getD "exchangelib" ++ ".py"
        ++ toString major ++ toString minor
    ∧ shelve_filename none 3 6 = "exchangelib.2.cache.exchangelib.py36" := by
  constructor
  · cases getuser <;> rfl
  · rfl

/-- C10: `remove((D, c1))` deletes the persisted entry for domain D
regardless of the credential component, but removes only the exact key from
the in-memory index: an entry for the same domain under a different
credential survives. -/
theorem remove_deletes_domain_but_only_exact_index_key (s : CacheState)
    (D : Domain) (c1 c2 : Cred) (p : AutodiscoverProtocol) (hne : c2 ≠ c1)
    (hmem : alookup s.protocols (D, c2) = some p) :
    alookup (__delitem__ s (D, c1)).db D = none
    ∧ alookup (__delitem__ s (D, c1)).protocols (D, c2) = some p := by
  constructor
  · exact alookup_aerase_self _ _
  · have hkne : (D, c2) ≠ (D, c1) := fun hh => hne (congrArg Prod.snd hh)
    calc alookup (__delitem__ s (D, c1)).protocols (D, c2)
        = alookup s.protocols (D, c2) := alookup_aerase_ne _ _ _ hkne
      _ = some p := hmem

/-- C10 witness: the frame effect of remove at a concrete state holding the
same domain under two credentials. -/
theorem remove_deletes_domain_but_only_exact_index_key_witness :
    ("c2" : Cred) ≠ "c1"
    ∧ alookup sState2.protocols ("d", "c2") = some pHandle2
    ∧ (alookup (__delitem__ sState2 ("d", "c1")).db "d" = none
      ∧ alookup (__delitem__ sState2 ("d", "c1")).protocols ("d", "c2")
          = some pHandle2) :=
  ⟨by decide, by decide,
   remove_deletes_domain_but_only_exact_index_key sState2 "d" "c1" "c2"
     pHandle2 (by decide) (by decide)⟩

end Exchangelib
